import Mathlib

/-!
A shallow embedding of the scheduling core of `alacritty_circadian.py`.

Conventions of the embedding:
* A UTC instant (Python aware `datetime`) is an integer: microseconds since an
  arbitrary epoch.  Python `datetime` arithmetic on aware datetimes is plain
  linear arithmetic on this representation; the year-1..9999 bounds are not
  modelled.
* A Python `timedelta` is an integer number of microseconds.  Its `.seconds`
  attribute is the normalized field `(delta // 10^6) mod 86400`, always in
  `[0, 86399]` regardless of the sign of the delta (Python `//` is floor
  division, which for a positive divisor coincides with Lean's `Int.ediv`,
  the `/` notation on `ℤ`).
* The process's local time zone is modelled as a fixed UTC offset in
  microseconds (`Env.tzOffset`); DST transitions are not modelled.
* The astral solar computation is an oracle `Env.solarTod`: the UTC
  time-of-day (in microseconds) of the named solar event.
* `float(v)` applied to a configured coordinate is modelled by
  `Option Bool`: `none` is an absent key (Python `None`, on which `float`
  raises `TypeError`, which the source does not catch), `some true` a value
  `float` accepts, `some false` a present value on which `float` raises
  `ValueError` (caught by the source).
* `sys.exit(msg)` and uncaught exceptions are the error side of `Except`.
* Digits in the `%H:%M` parser are modelled as ASCII digits.
* Filesystem access (theme-file existence checks, the actual TOML reads and
  writes) and threading are outside the embedding; the embedded functions
  return the values the source computes up to those effects.
-/

/-- Microseconds per second. -/
def usPerSec : ℤ := 1000000

/-- Microseconds per day. -/
def usPerDay : ℤ := 86400000000

/-- Start of the UTC calendar day containing instant `t` (Python
`datetime.replace` of the time fields to zero keeps the date part). -/
def dayStart (t : ℤ) : ℤ := usPerDay * (t / usPerDay)

/-- UTC time-of-day of instant `t`, in microseconds. -/
def todUs (t : ℤ) : ℤ := t % usPerDay

/-- The `.seconds` field of a Python `timedelta` of `delta` microseconds:
normalized into `[0, 86399]` regardless of sign. -/
def pySeconds (delta : ℤ) : ℤ := (delta / usPerSec) % 86400

/-- UTC calendar date of instant `t` (as a day index). -/
def utcDate (t : ℤ) : ℤ := t / usPerDay

/-- How a Python-level failure terminates the embedded computation. -/
inductive PyOutcome where
  /-- `sys.exit(msg)`: clean termination with a message. -/
  | exitMsg (msg : String)
  /-- an uncaught `TypeError` (e.g. `float(None)`). -/
  | typeError
  /-- an uncaught `UnboundLocalError` (a local variable read before any
  assignment). -/
  | unboundLocal
  /-- an uncaught `KeyError` (missing dictionary key). -/
  | keyError
deriving DecidableEq, Repr

instance {ε α : Type} [DecidableEq ε] [DecidableEq α] : DecidableEq (Except ε α) := fun
  | .error a, .error b => decidable_of_iff (a = b) (by simp)
  | .error _, .ok _ => isFalse (by simp)
  | .ok _, .error _ => isFalse (by simp)
  | .ok a, .ok b => decidable_of_iff (a = b) (by simp)

/-- One schedule entry of the `themes` list of the circadian config. -/
structure Theme where
  name : String
  time : String
deriving DecidableEq, Repr

/-- The ambient process environment the source reads implicitly: the local
time zone offset, the configured coordinates, and the astral solar oracle. -/
structure Env where
  /-- `utcoffset` of the process's local time zone, in microseconds. -/
  tzOffset : ℤ
  /-- the configured `coordinates.latitude`: absent, or a value `float`
  accepts (`some true`) / rejects with `ValueError` (`some false`). -/
  latitude : Option Bool
  /-- the configured `coordinates.longitude`, same encoding. -/
  longitude : Option Bool
  /-- UTC time-of-day (microseconds) of a named solar event, per astral. -/
  solarTod : String → ℤ

/-- ASCII digit test (the `\d` of the strptime regex, restricted to ASCII). -/
def isDig (c : Char) : Bool := 48 ≤ c.toNat && c.toNat ≤ 57

/-- Numeric value of an ASCII digit. -/
def digitVal (c : Char) : ℕ := c.toNat - 48

/-- The `%M` directive of `datetime.strptime`: regex `[0-5]\d|\d`, with the
whole remaining input required to be consumed (`strptime` raises on
unconverted trailing data). -/
def parseMin : List Char → Option ℕ
  | [c] => if isDig c then some (digitVal c) else none
  | [c1, c2] =>
    if isDig c1 ∧ c1.toNat ≤ 53 ∧ isDig c2 then
      some (10 * digitVal c1 + digitVal c2)
    else none
  | _ => none

/-- `datetime.strptime(s, "%H:%M")`, returning the parsed (hour, minute) or
`none` where strptime raises `ValueError`.  The `%H` directive is the regex
`2[0-3]|[0-1]\d|\d`: one or two digits, two-digit values capped at 23. -/
def parseHM (s : String) : Option (ℕ × ℕ) :=
  match s.toList with
  | c1 :: c2 :: rest =>
    if c2 = ':' then
      if isDig c1 then (parseMin rest).map (fun m => (digitVal c1, m)) else none
    else
      match rest with
      | c3 :: rest2 =>
        if c3 = ':' ∧ isDig c1 ∧ isDig c2 ∧ 10 * digitVal c1 + digitVal c2 ≤ 23 then
          (parseMin rest2).map (fun m => (10 * digitVal c1 + digitVal c2, m))
        else none
      | [] => none
  | _ => none

/-- The five solar-event tokens. -/
def times_of_sun : List String := ["dawn", "sunrise", "noon", "sunset", "dusk"]

/-- The coordinate-conversion loop of `get_theme_time`: `float` is applied to
latitude then longitude; `ValueError` is caught and sets `ok = False`
(reported as a clean `sys.exit` after the loop), while `float(None)` on an
absent key raises `TypeError`, which nothing catches. -/
def coordCheck : Option Bool → Option Bool → Except PyOutcome Unit
  | none, _ => .error .typeError
  | some _, none => .error .typeError
  | some a, some b =>
    if a && b then .ok ()
    else .error (.exitMsg "[ERROR] Coordinates not valid number(s)")

/-- `get_theme_time(theme, now_time)`: resolve a theme's `time` string to a
UTC instant anchored on `now`'s UTC calendar date.  A solar token goes
through the coordinate check and the astral oracle (the astral result is an
aware UTC datetime, whose date is replaced by `now`'s UTC date; the two
`astimezone` calls on an aware datetime do not move the instant).  Any other
string is parsed as `%H:%M`, placed on `now`'s UTC date as a naive wall
time, interpreted as local time and converted to UTC (instant = wall −
offset).  Parse failure is a clean `sys.exit`. -/
def get_theme_time (env : Env) (timeStr : String) (now : ℤ) : Except PyOutcome ℤ :=
  if timeStr ∈ times_of_sun then
    match coordCheck env.latitude env.longitude with
    | .error e => .error e
    | .ok _ => .ok (dayStart now + env.solarTod timeStr)
  else
    match parseHM timeStr with
    | none => .error (.exitMsg ("[ERROR] Unknown time format " ++ timeStr))
    | some (h, m) =>
      .ok (dayStart now + ((h : ℤ) * 3600 + (m : ℤ) * 60) * usPerSec - env.tzOffset)

/-- Local wall-clock hour of instant `t` in environment `env`. -/
def localHour (env : Env) (t : ℤ) : ℤ :=
  ((t + env.tzOffset) % usPerDay) / (3600 * usPerSec)

/-- Local wall-clock minute of instant `t` in environment `env`. -/
def localMinute (env : Env) (t : ℤ) : ℤ :=
  (((t + env.tzOffset) % usPerDay) % (3600 * usPerSec)) / (60 * usPerSec)

/-- Local calendar date (day index) of instant `t` in environment `env`. -/
def localDate (env : Env) (t : ℤ) : ℤ := (t + env.tzOffset) / usPerDay

/-- Time-of-day of instant `t` floored to the minute:
`hour(t)*3600e6 + minute(t)*60e6` in microseconds. -/
def hmOf (t : ℤ) : ℤ := todUs t - todUs t % (60 * usPerSec)

/-- `now_time.replace(hour=tt.hour, minute=tt.minute, second=0,
microsecond=0)`: the candidate instant on `now`'s UTC date carrying the
hour and minute of the resolved instant `tt`. -/
def candOfResolved (now tt : ℤ) : ℤ := dayStart now + hmOf tt

/-- `(now_time - switch_time).seconds + 1` of the selection loop. -/
def elapsedOf (now tt : ℤ) : ℤ := pySeconds (now - candOfResolved now tt) + 1

/-- The selection loop of `set_appropriate_theme`: fold over the themes with
state `(diff, preferred)`, `diff` initialized to `-1` and `preferred`
initially unbound (`none`).  A resolution failure aborts the whole loop. -/
def selectLoop (env : Env) (now : ℤ) :
    List Theme → ℤ → Option Theme → Except PyOutcome (Option Theme)
  | [], _, pref => .ok pref
  | t :: ts, diff, pref =>
    match get_theme_time env t.time now with
    | .error e => .error e
    | .ok tt =>
      if elapsedOf now tt > 0 ∧ (elapsedOf now tt < diff ∨ diff = -1) then
        selectLoop env now ts (elapsedOf now tt) (some t)
      else selectLoop env now ts diff pref

/-- `set_appropriate_theme(now_time)` up to the filesystem effects: empty
theme list is a clean `sys.exit`; otherwise run the selection loop; reading
`preferred_theme` after a loop that never assigned it is an
`UnboundLocalError`. -/
def set_appropriate_theme (env : Env) (themes : List Theme) (now : ℤ) :
    Except PyOutcome Theme :=
  if themes.isEmpty then .error (.exitMsg "[ERROR] No themes specified in circadian config")
  else
    match selectLoop env now themes (-1) none with
    | .error e => .error e
    | .ok none => .error .unboundLocal
    | .ok (some p) => .ok p

/-- The `switch_time` computed by the arming loop of
`set_theme_switch_timers` for a theme resolved to instant `tt`: today's
candidate at `tt`'s hour and minute, pushed one day ahead when the resolved
instant is strictly before `now`. -/
def armSwitchTime (now tt : ℤ) : ℤ :=
  if tt < now then candOfResolved now tt + usPerDay else candOfResolved now tt

/-- The timer delay `(switch_time - now_time).seconds + 1` of the arming
loop. -/
def armDelay (now tt : ℤ) : ℤ := pySeconds (armSwitchTime now tt - now) + 1

/-- The sequence of timer delays one pass of the arming loop of
`set_theme_switch_timers` computes, one per theme, aborting at the first
resolution failure (filesystem checks and the actual `Timer` objects are
outside the embedding). -/
def set_theme_switch_timers_delays (env : Env) (themes : List Theme) (now : ℤ) :
    Except PyOutcome (List ℤ) :=
  match themes with
  | [] => .ok []
  | t :: ts =>
    match get_theme_time env t.time now with
    | .error e => .error e
    | .ok tt =>
      match set_theme_switch_timers_delays env ts now with
      | .error e => .error e
      | .ok ds => .ok (armDelay now tt :: ds)

/-- Lookup of a key in a TOML document, modelled as an association list
(Python dict keys are unique; first match wins). -/
def getKey {α : Type} : List (String × α) → String → Option α
  | [], _ => none
  | (k1, v1) :: rest, k => if k1 = k then some v1 else getKey rest k

/-- Assignment `doc[k] = v` on a TOML document: replace the value at an
existing key in place, append the pair when the key is absent. -/
def setKey {α : Type} : List (String × α) → String → α → List (String × α)
  | [], k, v => [(k, v)]
  | (k1, v1) :: rest, k, v =>
    if k1 = k then (k, v) :: rest else (k1, v1) :: setKey rest k v

/-- `switch_theme(theme_data)` up to serialization: store
`theme_data["colors"]` under the `colors` key of the live config.  A theme
payload without a `colors` key raises an uncaught `KeyError`. -/
def switch_theme {α : Type} (config theme : List (String × α)) :
    Except PyOutcome (List (String × α)) :=
  match getKey theme "colors" with
  | none => .error .keyError
  | some c => .ok (setKey config "colors" c)

/-- UTC hour of instant `t` (the `.hour` attribute of a UTC datetime). -/
def utcHour (t : ℤ) : ℤ := todUs t / (3600 * usPerSec)

/-- UTC minute of instant `t` (the `.minute` attribute of a UTC datetime). -/
def utcMinute (t : ℤ) : ℤ := (todUs t % (3600 * usPerSec)) / (60 * usPerSec)

/-- The elapsed-seconds quantity as the specification words it: `now -
candidate` in seconds truncated toward zero, plus the one-second bias.
This is the quantity the claims about the selector describe; the source
instead uses the normalized `timedelta.seconds` field (`pySeconds`). -/
def claimElapsed (now cand : ℤ) : ℤ := Int.tdiv (now - cand) usPerSec + 1

/-- Reference selection used to characterize the selection loop: starting
from current best `p`, scan the remaining list and replace the best exactly
on a strictly smaller key (so ties keep the earlier element). -/
def fmin (g : Theme → ℤ) (p : Theme) : List Theme → Theme
  | [] => p
  | t :: ts => if g t < g p then fmin g t ts else fmin g p ts

/-- An environment whose local time zone is UTC and whose solar oracle is
constant zero; coordinates are present and parse. -/
def envUTC : Env := ⟨0, some true, some true, fun _ => 0⟩

/-- An environment two hours east of UTC. -/
def envTZ2 : Env := ⟨7200000000, some true, some true, fun _ => 0⟩

/-- An environment whose solar oracle puts every event at 10:00:30 UTC. -/
def envSolar30 : Env := ⟨0, some true, some true, fun _ => 36030000000⟩

/-- An environment with a missing latitude (and a longitude that parses). -/
def envMissing : Env := ⟨0, none, some true, fun _ => 0⟩

/-- An environment whose latitude is present but not parseable as a float. -/
def envBadLat : Env := ⟨0, some false, some true, fun _ => 0⟩

/-- The three-entry schedule of the specification's worked example. -/
def themes3 : List Theme := [⟨"A", "10:00"⟩, ⟨"B", "14:00"⟩, ⟨"C", "18:00"⟩]

/-- The resolved instants of `themes3` against a reference instant on day
zero in `envUTC`, as a function (10:00, 14:00 and 18:00 UTC). -/
def themes3Resolved : Theme → ℤ := fun t =>
  if t.time = "10:00" then 36000000000
  else if t.time = "14:00" then 50400000000
  else 64800000000

lemma pySeconds_bounds (d : ℤ) : 0 ≤ pySeconds d ∧ pySeconds d ≤ 86399 := by
  unfold pySeconds usPerSec
  omega

lemma elapsedOf_pos (now tt : ℤ) : 1 ≤ elapsedOf now tt := by
  have h := pySeconds_bounds (now - candOfResolved now tt)
  unfold elapsedOf
  omega

lemma armDelay_bounds (now tt : ℤ) : 1 ≤ armDelay now tt ∧ armDelay now tt ≤ 86400 := by
  have h := pySeconds_bounds (armSwitchTime now tt - now)
  unfold armDelay
  omega

lemma hmOf_facts (t : ℤ) :
    0 ≤ hmOf t ∧ hmOf t < 86400000000 ∧ (60000000 : ℤ) ∣ hmOf t := by
  unfold hmOf todUs usPerDay usPerSec
  omega

lemma elapsed_lt_of_future (now ta tb : ℤ) (ha : now < candOfResolved now ta)
    (hb : now < candOfResolved now tb) (hab : hmOf ta < hmOf tb) :
    elapsedOf now tb < elapsedOf now ta := by
  obtain ⟨ha0, ha1, ha2⟩ := hmOf_facts ta
  obtain ⟨hb0, hb1, hb2⟩ := hmOf_facts tb
  unfold elapsedOf pySeconds candOfResolved at *
  unfold dayStart usPerSec usPerDay at *
  omega

lemma selectLoop_from (env : Env) (now : ℤ) (f : Theme → ℤ) :
    ∀ (ts : List Theme) (p : Theme),
      (∀ t ∈ ts, get_theme_time env t.time now = Except.ok (f t)) →
      selectLoop env now ts (elapsedOf now (f p)) (some p) =
        Except.ok (some (fmin (fun t => elapsedOf now (f t)) p ts))
  | [], p, _ => rfl
  | t :: ts, p, hf => by
    have ht : get_theme_time env t.time now = Except.ok (f t) :=
      hf t (List.mem_cons_self t ts)
    have hts : ∀ u ∈ ts, get_theme_time env u.time now = Except.ok (f u) :=
      fun u hu => hf u (List.mem_cons_of_mem t hu)
    have hp : 1 ≤ elapsedOf now (f p) := elapsedOf_pos now (f p)
    have htpos : 1 ≤ elapsedOf now (f t) := elapsedOf_pos now (f t)
    simp only [selectLoop, ht]
    by_cases hlt : elapsedOf now (f t) < elapsedOf now (f p)
    · rw [if_pos ⟨by omega, Or.inl hlt⟩]
      rw [selectLoop_from env now f ts t hts]
      rw [fmin, if_pos hlt]
    · rw [if_neg (by omega)]
      rw [selectLoop_from env now f ts p hts]
      rw [fmin, if_neg hlt]

lemma fmin_le_base (g : Theme → ℤ) : ∀ (ts : List Theme) (p : Theme), g (fmin g p ts) ≤ g p
  | [], _ => le_refl _
  | t :: ts, p => by
    rw [fmin]
    by_cases h : g t < g p
    · rw [if_pos h]
      exact le_trans (fmin_le_base g ts t) (le_of_lt h)
    · rw [if_neg h]
      exact fmin_le_base g ts p

lemma fmin_split (g : Theme → ℤ) : ∀ (ts : List Theme) (p : Theme), ∃ pre post,
    p :: ts = pre ++ fmin g p ts :: post ∧
    (∀ q ∈ pre, g (fmin g p ts) < g q) ∧
    (∀ q ∈ post, g (fmin g p ts) ≤ g q)
  | [], p => ⟨[], [], rfl, by simp, by simp⟩
  | t :: ts, p => by
    rw [fmin]
    by_cases h : g t < g p
    · rw [if_pos h]
      obtain ⟨pre, post, hdec, hstrict, hle⟩ := fmin_split g ts t
      refine ⟨p :: pre, post, ?_, ?_, hle⟩
      · rw [List.cons_append, ← hdec]
      · intro q hq
        rcases List.mem_cons.mp hq with hq | hq
        · subst hq
          exact lt_of_le_of_lt (fmin_le_base g ts t) h
        · exact hstrict q hq
    · rw [if_neg h]
      obtain ⟨pre, post, hdec, hstrict, hle⟩ := fmin_split g ts p
      cases pre with
      | nil =>
        rw [List.nil_append] at hdec
        injection hdec with h1 h2
        refine ⟨[], t :: post, ?_, by simp, ?_⟩
        · rw [List.nil_append, ← h1, ← h2]
        · intro q hq
          rcases List.mem_cons.mp hq with hq | hq
          · subst hq
            rw [← h1]
            exact le_of_not_lt h
          · exact hle q hq
      | cons a pre =>
        rw [List.cons_append] at hdec
        injection hdec with h1 h2
        have hp : g (fmin g p ts) < g p := by
          have ha := hstrict a (List.mem_cons_self a pre)
          rwa [← h1] at ha
        refine ⟨p :: t :: pre, post, ?_, ?_, hle⟩
        · rw [List.cons_append, List.cons_append, ← h2]
        · intro q hq
          rcases List.mem_cons.mp hq with hq | hq
          · subst hq
            exact hp
          · rcases List.mem_cons.mp hq with hq2 | hq2
            · subst hq2
              exact lt_of_lt_of_le hp (le_of_not_lt h)
            · exact hstrict q (List.mem_cons_of_mem a hq2)

lemma select_eq_fmin (env : Env) (now : ℤ) (f : Theme → ℤ) (t : Theme) (ts : List Theme)
    (hf : ∀ u ∈ t :: ts, get_theme_time env u.time now = Except.ok (f u)) :
    set_appropriate_theme env (t :: ts) now =
      Except.ok (fmin (fun u => elapsedOf now (f u)) t ts) := by
  have ht : get_theme_time env t.time now = Except.ok (f t) :=
    hf t (List.mem_cons_self t ts)
  have hts : ∀ u ∈ ts, get_theme_time env u.time now = Except.ok (f u) :=
    fun u hu => hf u (List.mem_cons_of_mem t hu)
  have htpos : 1 ≤ elapsedOf now (f t) := elapsedOf_pos now (f t)
  unfold set_appropriate_theme
  rw [if_neg (by simp)]
  simp only [selectLoop, ht]
  rw [if_pos ⟨by omega, Or.inr trivial⟩]
  rw [selectLoop_from env now f ts t hts]

lemma select_spec (env : Env) (now : ℤ) (f : Theme → ℤ) (t : Theme) (ts : List Theme)
    (hf : ∀ u ∈ t :: ts, get_theme_time env u.time now = Except.ok (f u)) :
    ∃ pre post sel,
      t :: ts = pre ++ sel :: post ∧
      set_appropriate_theme env (t :: ts) now = Except.ok sel ∧
      (∀ q ∈ t :: ts, elapsedOf now (f sel) ≤ elapsedOf now (f q)) ∧
      (∀ q ∈ pre, elapsedOf now (f sel) < elapsedOf now (f q)) := by
  obtain ⟨pre, post, hdec, hstrict, hle⟩ := fmin_split (fun u => elapsedOf now (f u)) ts t
  refine ⟨pre, post, fmin (fun u => elapsedOf now (f u)) t ts, hdec,
    select_eq_fmin env now f t ts hf, ?_, hstrict⟩
  intro q hq
  rw [hdec] at hq
  rcases List.mem_append.mp hq with hq | hq
  · exact le_of_lt (hstrict q hq)
  · rcases List.mem_cons.mp hq with hq | hq
    · rw [hq]
    · exact hle q hq

/-- Claim C1, counterexample to the claim as stated.  At reference time
09:00 every entry of the worked-example schedule resolves to a strictly
future candidate, so under the claim's own elapsed quantity (`now -
candidate` truncated toward zero, plus one) no entry qualifies
(`elapsedSeconds > 0` fails for all three); yet the selection returns entry
C rather than having no qualifying entry to return, so the claim's
description of the selector is false of the code. -/
theorem selection_counterexample_morning :
    set_appropriate_theme envUTC themes3 32400000000 = Except.ok ⟨"C", "18:00"⟩ ∧
    get_theme_time envUTC "10:00" 32400000000 = Except.ok 36000000000 ∧
    get_theme_time envUTC "14:00" 32400000000 = Except.ok 50400000000 ∧
    get_theme_time envUTC "18:00" 32400000000 = Except.ok 64800000000 ∧
    claimElapsed 32400000000 (candOfResolved 32400000000 36000000000) ≤ 0 ∧
    claimElapsed 32400000000 (candOfResolved 32400000000 50400000000) ≤ 0 ∧
    claimElapsed 32400000000 (candOfResolved 32400000000 64800000000) ≤ 0 := by
  decide

/-- Claim C1 (amended): for every non-empty schedule whose entries all
resolve, the selector computes for each entry a candidate instant on now's
calendar date and elapsedSeconds as the Python-normalized
`(now - candidate).seconds + 1` (not a truncation of the signed difference;
it is at least 1 for every entry, so every entry qualifies, future
candidates included), and returns the entry with the smallest
elapsedSeconds, ties keeping the earlier entry in list order (the returned
entry's elapsedSeconds is minimal over the whole list and strictly smaller
than that of every entry preceding it). -/
theorem selection_returns_min_elapsed (env : Env) (themes : List Theme) (now : ℤ)
    (f : Theme → ℤ)
    (hf : ∀ t ∈ themes, get_theme_time env t.time now = Except.ok (f t))
    (hne : themes ≠ []) :
    ∃ pre post sel,
      themes = pre ++ sel :: post ∧
      set_appropriate_theme env themes now = Except.ok sel ∧
      (∀ q ∈ themes, elapsedOf now (f sel) ≤ elapsedOf now (f q)) ∧
      (∀ q ∈ pre, elapsedOf now (f sel) < elapsedOf now (f q)) := by
  match themes, hne with
  | t :: ts, _ => exact select_spec env now f t ts hf

/-- Claim C1, witness: over entries `[{A,10:00},{B,14:00},{C,18:00}]` at
reference time 15:00 the same day the selection returns B. -/
theorem selection_returns_min_elapsed_witness :
    set_appropriate_theme envUTC themes3 54000000000 = Except.ok ⟨"B", "14:00"⟩ := by
  obtain ⟨pre, post, sel, hdec, heq, hmin, hstrict⟩ :=
    selection_returns_min_elapsed envUTC themes3 54000000000 themes3Resolved
      (by decide) (by decide)
  have hB := hmin ⟨"B", "14:00"⟩ (by decide)
  have hmem : sel ∈ themes3 := by
    rw [hdec]
    exact List.mem_append_right pre (List.mem_cons_self sel post)
  fin_cases hmem
  · exact absurd hB (by decide)
  · exact heq
  · exact absurd hB (by decide)

/-- Claim C2, counterexample.  The claim asserts that with every entry's
time strictly in the future (reference 00:01, single entry at 06:00) the
selection has no entry with positive elapsedSeconds and dies with an
unbound-variable error.  In fact the normalized elapsedSeconds is 64861
(positive), the entry is selected on the first iteration, and the
selection returns it; the unbound-variable outcome does not occur. -/
theorem selection_no_unbound_counterexample :
    set_appropriate_theme envUTC [⟨"A", "06:00"⟩] 60000000 = Except.ok ⟨"A", "06:00"⟩ ∧
    elapsedOf 60000000 21600000000 = 64861 ∧
    set_appropriate_theme envUTC [⟨"A", "06:00"⟩] 60000000 ≠
      Except.error PyOutcome.unboundLocal := by
  decide

/-- Claim C2 (amended): when every schedule entry's time-of-day is strictly
in the future relative to `now`, every entry still has positive
elapsedSeconds (Python timedelta normalization makes it at least 1), so the
selection binds and returns a theme instead of failing with an
unbound-variable error. -/
theorem selection_all_future_binds (env : Env) (themes : List Theme) (now : ℤ)
    (f : Theme → ℤ)
    (hf : ∀ t ∈ themes, get_theme_time env t.time now = Except.ok (f t))
    (hne : themes ≠ [])
    (hfut : ∀ t ∈ themes, now < candOfResolved now (f t)) :
    ∃ sel, sel ∈ themes ∧
      set_appropriate_theme env themes now = Except.ok sel ∧
      set_appropriate_theme env themes now ≠ Except.error PyOutcome.unboundLocal := by
  match themes, hne with
  | t :: ts, _ =>
    obtain ⟨pre, post, sel, hdec, heq, _, _⟩ := select_spec env now f t ts hf
    refine ⟨sel, ?_, heq, ?_⟩
    · rw [hdec]
      exact List.mem_append_right pre (List.mem_cons_self sel post)
    · rw [heq]
      simp

/-- Claim C2, witness: the amended statement at the claim's own input
(reference 00:01, single entry at 06:00). -/
theorem selection_all_future_binds_witness :
    set_appropriate_theme envUTC [⟨"A", "06:00"⟩] 60000000 ≠
      Except.error PyOutcome.unboundLocal := by
  obtain ⟨sel, -, -, hne⟩ :=
    selection_all_future_binds envUTC [⟨"A", "06:00"⟩] 60000000
      (fun _ => 21600000000) (by decide) (by decide) (by decide)
  exact hne

/-- Claim C3 (confirmed): for every non-empty schedule whose entries all
resolve, the computed `(now - candidate).seconds + 1` is at least 1 for
every candidate (Python timedelta day/second normalization), the selection
always binds and returns a theme, and when every candidate is strictly in
the future the selected entry is one with the latest time-of-day (the
cyclic wrap to yesterday's last theme). -/
theorem selection_total_cyclic_wrap (env : Env) (themes : List Theme) (now : ℤ)
    (f : Theme → ℤ)
    (hf : ∀ t ∈ themes, get_theme_time env t.time now = Except.ok (f t))
    (hne : themes ≠ []) :
    (∀ t ∈ themes, 1 ≤ elapsedOf now (f t)) ∧
    (∃ sel, set_appropriate_theme env themes now = Except.ok sel) ∧
    ((∀ t ∈ themes, now < candOfResolved now (f t)) →
      ∃ sel, sel ∈ themes ∧
        set_appropriate_theme env themes now = Except.ok sel ∧
        ∀ t ∈ themes, hmOf (f t) ≤ hmOf (f sel)) := by
  match themes, hne with
  | t :: ts, _ =>
    obtain ⟨pre, post, sel, hdec, heq, hmin, _⟩ := select_spec env now f t ts hf
    have hmem : sel ∈ t :: ts := by
      rw [hdec]
      exact List.mem_append_right pre (List.mem_cons_self sel post)
    refine ⟨fun u _ => elapsedOf_pos now (f u), ⟨sel, heq⟩, fun hfut => ⟨sel, hmem, heq, ?_⟩⟩
    intro u hu
    by_contra hcon
    have hlt : hmOf (f sel) < hmOf (f u) := lt_of_not_le hcon
    have := elapsed_lt_of_future now (f sel) (f u) (hfut sel hmem) (hfut u hu) hlt
    have hle := hmin u hu
    omega

/-- Claim C3, witness: at reference 00:30 every entry of the worked-example
schedule is in the future and the selection wraps to the 18:00 entry, the
latest time-of-day of the schedule. -/
theorem selection_total_cyclic_wrap_witness :
    set_appropriate_theme envUTC themes3 1800000000 = Except.ok ⟨"C", "18:00"⟩ := by
  obtain ⟨-, -, hwrap⟩ :=
    selection_total_cyclic_wrap envUTC themes3 1800000000 themes3Resolved
      (by decide) (by decide)
  obtain ⟨sel, hmem, hsel, hmax⟩ := hwrap (by decide)
  have hC := hmax ⟨"C", "18:00"⟩ (by decide)
  fin_cases hmem
  · exact absurd hC (by decide)
  · exact absurd hC (by decide)
  · exact hsel

/-- Claim C4, counterexample to the claim as stated.  The solar oracle
resolves "dawn" to 10:00:30 UTC and `now` is 10:00:10, so the resolved
instant is not strictly before `now` and today's candidate is armed; but
zeroing the seconds puts the armed occurrence at 10:00:00, ten seconds in
the past.  The claim's delay, `(nextOccurrence - now)` in whole seconds
plus one, would be -9; the code's delay is the Python-normalized
`timedelta.seconds + 1`, namely 86391. -/
theorem arm_delay_counterexample :
    get_theme_time envSolar30 "dawn" 36010000000 = Except.ok 36030000000 ∧
    armSwitchTime 36010000000 36030000000 = 36000000000 ∧
    armDelay 36010000000 36030000000 = 86391 ∧
    Int.tdiv (armSwitchTime 36010000000 36030000000 - 36010000000) usPerSec + 1 = -9 := by
  decide

/-- Claim C4 (amended): during cycle arming, an entry whose resolved
instant is strictly before `now` is armed at today's candidate (now's date
with the entry's hour and minute, seconds and microseconds zeroed)
advanced by exactly one calendar day, and otherwise at today's candidate
itself; the timer delay is the Python-normalized
`(nextOccurrence - now).seconds + 1`, which equals `(nextOccurrence -
now)` in whole seconds plus one whenever that difference lies in
`[0, 24h)` (in general the normalization discards whole days and maps
negative differences into `[0, 86399]`). -/
theorem arm_next_occurrence (now tt : ℤ) :
    (tt < now → armSwitchTime now tt = candOfResolved now tt + usPerDay) ∧
    (now ≤ tt → armSwitchTime now tt = candOfResolved now tt) ∧
    candOfResolved now tt =
      dayStart now + 3600 * usPerSec * utcHour tt + 60 * usPerSec * utcMinute tt ∧
    (0 ≤ armSwitchTime now tt - now → armSwitchTime now tt - now < usPerDay →
      armDelay now tt = (armSwitchTime now tt - now) / usPerSec + 1) := by
  refine ⟨fun h => ?_, fun h => ?_, ?_, fun h0 h1 => ?_⟩
  · rw [armSwitchTime, if_pos h]
  · rw [armSwitchTime, if_neg (not_lt.mpr h)]
  · unfold candOfResolved hmOf utcHour utcMinute todUs dayStart usPerSec usPerDay
    omega
  · rw [armDelay]
    generalize hd : armSwitchTime now tt - now = d at h0 h1
    unfold pySeconds usPerSec at *
    unfold usPerDay at h1
    omega

/-- Claim C4, witness: a past entry (10:00:00 against now 10:00:10) is
armed one calendar day ahead, a future entry (14:00) is armed today, and
the future entry's delay is the plain whole-second difference plus one. -/
theorem arm_next_occurrence_witness :
    armSwitchTime 36010000000 36000000000 = candOfResolved 36010000000 36000000000 + usPerDay ∧
    armSwitchTime 36010000000 50400000000 = candOfResolved 36010000000 50400000000 ∧
    armDelay 36010000000 50400000000 =
      (armSwitchTime 36010000000 50400000000 - 36010000000) / usPerSec + 1 :=
  ⟨(arm_next_occurrence 36010000000 36000000000).1 (by decide),
   (arm_next_occurrence 36010000000 50400000000).2.1 (by decide),
   (arm_next_occurrence 36010000000 50400000000).2.2.2 (by decide) (by decide)⟩

/-- Claim C10 (confirmed): every timer delay the arming loop computes lies
between 1 and 86400 seconds inclusive, because it is `timedelta.seconds`
(normalized by Python into `[0, 86399]` regardless of the sign of the
difference) plus one. -/
theorem timer_delay_in_range (env : Env) (themes : List Theme) (now : ℤ) (ds : List ℤ)
    (h : set_theme_switch_timers_delays env themes now = Except.ok ds) :
    ∀ d ∈ ds, 1 ≤ d ∧ d ≤ 86400 := by
  induction themes generalizing ds with
  | nil =>
    rw [set_theme_switch_timers_delays] at h
    injection h with h
    subst h
    intro d hd
    exact absurd hd (List.not_mem_nil d)
  | cons t ts ih =>
    cases hget : get_theme_time env t.time now with
    | error e =>
      simp only [set_theme_switch_timers_delays, hget] at h
      exact Except.noConfusion h
    | ok tt =>
      cases hrec : set_theme_switch_timers_delays env ts now with
      | error e =>
        simp only [set_theme_switch_timers_delays, hget, hrec] at h
        exact Except.noConfusion h
      | ok ds2 =>
        simp only [set_theme_switch_timers_delays, hget, hrec, Except.ok.injEq] at h
        subst h
        intro d hd
        rcases List.mem_cons.mp hd with hd | hd
        · subst hd
          exact armDelay_bounds now tt
        · exact ih ds2 hrec d hd

/-- Claim C10, witness: the three delays of the worked-example schedule at
reference 15:00 are 68401, 82801 and 10801 seconds, and the first lies in
`[1, 86400]` by the theorem. -/
theorem timer_delay_in_range_witness :
    set_theme_switch_timers_delays envUTC themes3 54000000000 =
      Except.ok [68401, 82801, 10801] ∧
    1 ≤ (68401 : ℤ) ∧ (68401 : ℤ) ≤ 86400 :=
  ⟨by decide,
   timer_delay_in_range envUTC themes3 54000000000 [68401, 82801, 10801]
     (by decide) 68401 (by decide)⟩

lemma getKey_setKey_self {α : Type} (l : List (String × α)) (k : String) (v : α) :
    getKey (setKey l k v) k = some v := by
  induction l with
  | nil => simp [setKey, getKey]
  | cons p rest ih =>
    obtain ⟨pk, pv⟩ := p
    by_cases h : pk = k
    · rw [setKey, if_pos h, getKey, if_pos rfl]
    · rw [setKey, if_neg h, getKey, if_neg h]
      exact ih

lemma getKey_setKey_ne {α : Type} (l : List (String × α)) (k k1 : String) (v : α)
    (hne : k1 ≠ k) : getKey (setKey l k v) k1 = getKey l k1 := by
  induction l with
  | nil =>
    simp [setKey, getKey, Ne.symm hne]
  | cons p rest ih =>
    obtain ⟨pk, pv⟩ := p
    by_cases h : pk = k
    · subst h
      rw [setKey, if_pos rfl, getKey, getKey,
        if_neg (fun h2 => hne h2.symm), if_neg (fun h2 => hne h2.symm)]
    · rw [setKey, if_neg h, getKey, getKey]
      by_cases h2 : pk = k1
      · rw [if_pos h2, if_pos h2]
      · rw [if_neg h2, if_neg h2]
        exact ih

/-- Claim C5 (confirmed): applying a theme whose payload carries a `colors`
block replaces exactly the `colors` key of the destination document and
leaves the value of every other key unchanged. -/
theorem switch_theme_frame {α : Type} (config theme : List (String × α)) (c : α)
    (hc : getKey theme "colors" = some c) :
    switch_theme config theme = Except.ok (setKey config "colors" c) ∧
    getKey (setKey config "colors" c) "colors" = some c ∧
    ∀ k, k ≠ "colors" → getKey (setKey config "colors" c) k = getKey config k := by
  refine ⟨?_, getKey_setKey_self config "colors" c,
    fun k hk => getKey_setKey_ne config "colors" k c hk⟩
  simp only [switch_theme, hc]

/-- Claim C5, witness: the worked example `{font: mono, colors: old}` with
theme `{colors: new}` yields `{font: mono, colors: new}`, the `font` key
untouched. -/
theorem switch_theme_frame_witness :
    switch_theme [("font", "mono"), ("colors", "old")] [("colors", "new")] =
      Except.ok [("font", "mono"), ("colors", "new")] ∧
    getKey [("font", "mono"), ("colors", "new")] "font" = some "mono" := by
  have h := switch_theme_frame [("font", "mono"), ("colors", "old")]
    [("colors", "new")] "new" (by decide)
  exact ⟨h.1, by decide⟩

lemma isDig_bounds (c : Char) (h : isDig c = true) : 48 ≤ c.toNat ∧ c.toNat ≤ 57 := by
  simpa [isDig] using h

lemma isDig_ne_colon (c : Char) (h : isDig c = true) : c ≠ ':' :=
  fun he => absurd (he ▸ h) (by decide)

lemma parseMin_sound : ∀ (l : List Char) (m : ℕ), parseMin l = some m →
    m ≤ 59 ∧ ∀ c ∈ l, isDig c = true
  | [c], m, h => by
    rw [parseMin] at h
    split_ifs at h with hd
    · obtain ⟨h48, h57⟩ := isDig_bounds c hd
      injection h with h
      subst h
      refine ⟨by unfold digitVal; omega, ?_⟩
      intro c2 hc2
      rw [List.mem_singleton] at hc2
      subst hc2
      exact hd
  | [c1, c2], m, h => by
    rw [parseMin] at h
    split_ifs at h with hd
    · obtain ⟨hd1, h53, hd2⟩ := hd
      obtain ⟨h48a, h57a⟩ := isDig_bounds c1 hd1
      obtain ⟨h48b, h57b⟩ := isDig_bounds c2 hd2
      injection h with h
      subst h
      refine ⟨by unfold digitVal; omega, ?_⟩
      intro c hc
      rcases List.mem_cons.mp hc with rfl | hc
      · exact hd1
      · rw [List.mem_singleton] at hc
        subst hc
        exact hd2
  | [], m, h => by
    simp [parseMin] at h
  | c1 :: c2 :: c3 :: rest, m, h => by
    simp [parseMin] at h

lemma count_colon_zero (l : List Char) (h : ∀ c ∈ l, isDig c = true) :
    l.count ':' = 0 :=
  List.count_eq_zero.mpr (fun hmem => absurd (h ':' hmem) (by decide))

lemma parseHM_sound (s : String) (h m : ℕ) (hp : parseHM s = some (h, m)) :
    h ≤ 23 ∧ m ≤ 59 ∧ s.toList.count ':' = 1 := by
  rw [parseHM] at hp
  cases hsl : s.toList with
  | nil =>
    rw [hsl] at hp
    exact Option.noConfusion hp
  | cons c1 rest1 =>
    cases rest1 with
    | nil =>
      rw [hsl] at hp
      exact Option.noConfusion hp
    | cons c2 rest =>
      rw [hsl] at hp
      simp only [] at hp
      by_cases hc2 : c2 = ':'
      · rw [if_pos hc2] at hp
        by_cases hd1 : isDig c1
        · rw [if_pos hd1] at hp
          cases hpm : parseMin rest with
          | none =>
            rw [hpm] at hp
            exact Option.noConfusion hp
          | some mv =>
            rw [hpm] at hp
            simp only [Option.map_some', Option.some.injEq, Prod.mk.injEq] at hp
            obtain ⟨hh, hm⟩ := hp
            obtain ⟨hmb, hmd⟩ := parseMin_sound rest mv hpm
            obtain ⟨h48, h57⟩ := isDig_bounds c1 hd1
            subst hh
            subst hm
            refine ⟨by unfold digitVal; omega, hmb, ?_⟩
            subst hc2
            rw [List.count_cons, List.count_cons, count_colon_zero rest hmd]
            simp [isDig_ne_colon c1 hd1]
        · rw [if_neg hd1] at hp
          exact Option.noConfusion hp
      · rw [if_neg hc2] at hp
        cases rest with
        | nil => exact Option.noConfusion hp
        | cons c3 rest2 =>
          simp only [] at hp
          split_ifs at hp with hcond
          · obtain ⟨hc3, hd1, hd2, hle⟩ := hcond
            cases hpm : parseMin rest2 with
            | none =>
              rw [hpm] at hp
              exact Option.noConfusion hp
            | some mv =>
              rw [hpm] at hp
              simp only [Option.map_some', Option.some.injEq, Prod.mk.injEq] at hp
              obtain ⟨hh, hm⟩ := hp
              obtain ⟨hmb, hmd⟩ := parseMin_sound rest2 mv hpm
              subst hh
              subst hm
              refine ⟨hle, hmb, ?_⟩
              subst hc3
              rw [List.count_cons, List.count_cons, List.count_cons,
                count_colon_zero rest2 hmd]
              simp [isDig_ne_colon c1 hd1, isDig_ne_colon c2 hd2]

lemma token_parse_none (s : String) (hs : s ∈ times_of_sun) : parseHM s = none := by
  fin_cases hs <;> decide

lemma parsed_not_token (s : String) (h m : ℕ) (hp : parseHM s = some (h, m)) :
    s ∉ times_of_sun :=
  fun hmem => Option.noConfusion ((token_parse_none s hmem) ▸ hp)

/-- Claim C6, counterexample.  The claim says the resolver rejects every
string not of two-digit-colon-two-digit shape, in particular the
single-digit-hour string "9:05"; but `strptime`'s `%H` directive accepts
one-digit hours, so the parse succeeds as 09:05. -/
theorem hm_format_counterexample : parseHM "9:05" = some (9, 5) := by
  decide

/-- Claim C6 (amended): a non-solar time specifier is parsed with
`%H:%M`, which accepts one- or two-digit hours up to 23 and one- or
two-digit minutes up to 59 separated by a single colon; any successful
parse yields hour at most 23, minute at most 59 and exactly one colon in
the input, so strings with a seconds field (two colons) and the value
24:00 (or any out-of-range field) are still rejected, but single-digit
fields such as "9:05" are accepted. -/
theorem hm_format (s : String) (h m : ℕ) :
    (parseHM s = some (h, m) → h ≤ 23 ∧ m ≤ 59 ∧ s.toList.count ':' = 1) ∧
    parseHM "24:00" = none ∧
    parseHM "10:00:30" = none ∧
    parseHM "00:60" = none ∧
    parseHM "9:05" = some (9, 5) ∧
    parseHM "23:59" = some (23, 59) :=
  ⟨parseHM_sound s h m, by decide, by decide, by decide, by decide, by decide⟩

/-- Claim C6, witness: the first component of the amended statement applied
to the accepted input "9:05". -/
theorem hm_format_witness :
    (9 : ℕ) ≤ 23 ∧ (5 : ℕ) ≤ 59 ∧ ("9:05" : String).toList.count ':' = 1 :=
  (hm_format "9:05" 9 5).1 (by decide)

/-- Claim C9 (confirmed): resolving a valid `HH:MM` clock string against
any reference instant and converting the resulting UTC instant back to the
process's local wall clock reproduces the parsed hour and minute. -/
theorem clock_roundtrip (env : Env) (s : String) (h m : ℕ) (now : ℤ)
    (hp : parseHM s = some (h, m)) :
    ∃ R, get_theme_time env s now = Except.ok R ∧
      localHour env R = h ∧ localMinute env R = m := by
  obtain ⟨h23, m59, -⟩ := parseHM_sound s h m hp
  have hmem : s ∉ times_of_sun := parsed_not_token s h m hp
  refine ⟨dayStart now + ((h : ℤ) * 3600 + (m : ℤ) * 60) * usPerSec - env.tzOffset,
    ?_, ?_, ?_⟩
  · simp only [get_theme_time, hp]
    rw [if_neg hmem]
  · unfold localHour dayStart usPerSec usPerDay
    omega
  · unfold localMinute dayStart usPerSec usPerDay
    omega

/-- Claim C9, witness: "08:45" resolved in a UTC+2 environment against a
reference instant at 23:30 UTC of day zero comes back as local wall time
08:45. -/
theorem clock_roundtrip_witness :
    get_theme_time envTZ2 "08:45" 84600000000 = Except.ok 24300000000 ∧
    localHour envTZ2 24300000000 = 8 ∧ localMinute envTZ2 24300000000 = 45 := by
  obtain ⟨R, hR, hh, hm⟩ := clock_roundtrip envTZ2 "08:45" 8 45 84600000000 (by decide)
  have hconc : get_theme_time envTZ2 "08:45" 84600000000 = Except.ok 24300000000 := by
    decide
  have hRe := hconc.symm.trans hR
  injection hRe with hRe
  subst hRe
  exact ⟨hconc, by exact_mod_cast hh, by exact_mod_cast hm⟩

/-- Claim C7, counterexample.  In a UTC+2 environment at reference instant
23:30 UTC of day 0 (which is 01:30 of day 1 in local time), the clock
specifier "10:00" resolves to an instant whose local calendar date is day
0 — the reference instant's UTC date — while the reference instant's local
calendar date is day 1; the claim asserts the resolved instant lies on the
latter. -/
theorem resolve_date_counterexample :
    get_theme_time envTZ2 "10:00" 84600000000 = Except.ok 28800000000 ∧
    localDate envTZ2 28800000000 = 0 ∧
    localDate envTZ2 84600000000 = 1 ∧
    localDate envTZ2 28800000000 ≠ localDate envTZ2 84600000000 := by
  decide

/-- Claim C7 (amended): the resolver anchors to the reference instant's UTC
calendar date: a valid clock specifier resolves to the instant whose LOCAL
reading lies on that UTC date (local wall time HH:MM of the reference's
UTC date), and a solar specifier (with usable coordinates and a solar
time-of-day within the day) resolves to an instant on that UTC date read
in UTC. -/
theorem resolve_date_anchor (env : Env) (now : ℤ) :
    (∀ s h m, parseHM s = some (h, m) →
      ∃ R, get_theme_time env s now = Except.ok R ∧ localDate env R = utcDate now) ∧
    (∀ s, s ∈ times_of_sun →
      env.latitude = some true → env.longitude = some true →
      0 ≤ env.solarTod s → env.solarTod s < usPerDay →
      ∃ R, get_theme_time env s now = Except.ok R ∧ utcDate R = utcDate now) := by
  constructor
  · intro s h m hp
    obtain ⟨h23, m59, -⟩ := parseHM_sound s h m hp
    have hmem : s ∉ times_of_sun := parsed_not_token s h m hp
    refine ⟨dayStart now + ((h : ℤ) * 3600 + (m : ℤ) * 60) * usPerSec - env.tzOffset,
      ?_, ?_⟩
    · simp only [get_theme_time, hp]
      rw [if_neg hmem]
    · unfold localDate utcDate dayStart usPerSec usPerDay
      omega
  · intro s hs hlat hlon h0 h1
    refine ⟨dayStart now + env.solarTod s, ?_, ?_⟩
    · simp only [get_theme_time, hlat, hlon, coordCheck]
      rw [if_pos hs]
      rfl
    · unfold usPerDay at h1
      unfold utcDate dayStart usPerDay
      omega

/-- Claim C7, witness: "10:00" resolved in the UTC+2 environment against
reference 23:30 UTC of day 0 yields an instant whose local date is day 0,
the reference's UTC date. -/
theorem resolve_date_anchor_witness :
    get_theme_time envTZ2 "10:00" 84600000000 = Except.ok 28800000000 ∧
    localDate envTZ2 28800000000 = utcDate 84600000000 := by
  obtain ⟨R, hR, hdate⟩ :=
    (resolve_date_anchor envTZ2 84600000000).1 "10:00" 10 0 (by decide)
  have hconc : get_theme_time envTZ2 "10:00" 84600000000 = Except.ok 28800000000 := by
    decide
  have hRe := hconc.symm.trans hR
  injection hRe with hRe
  subst hRe
  exact ⟨hconc, hdate⟩

/-- Claim C8, counterexample.  With the latitude absent from the
configuration (and the longitude fine), resolving a solar token does not
terminate cleanly with a descriptive configuration error: `float(None)`
raises `TypeError`, which the `except ValueError` clause does not catch,
so the process dies with an uncaught exception. -/
theorem solar_coord_counterexample :
    get_theme_time envMissing "dawn" 0 = Except.error PyOutcome.typeError := by
  decide

/-- Claim C8 (amended): the coordinate check runs inside every solar
resolution call (not once at startup).  Coordinates that are present but
not parseable as floats produce a clean fatal exit with a descriptive
message; a missing latitude, or a missing longitude with the latitude
present, raises an uncaught `TypeError` instead; and two parseable
coordinates let the resolution proceed to the solar oracle. -/
theorem solar_coord_check (env : Env) (s : String) (now : ℤ) (hs : s ∈ times_of_sun) :
    (env.latitude = none → get_theme_time env s now = Except.error PyOutcome.typeError) ∧
    (∀ a, env.latitude = some a → env.longitude = none →
      get_theme_time env s now = Except.error PyOutcome.typeError) ∧
    (∀ a b, env.latitude = some a → env.longitude = some b → (a && b) = false →
      get_theme_time env s now =
        Except.error (PyOutcome.exitMsg "[ERROR] Coordinates not valid number(s)")) ∧
    (∀ a b, env.latitude = some a → env.longitude = some b → (a && b) = true →
      get_theme_time env s now = Except.ok (dayStart now + env.solarTod s)) := by
  refine ⟨fun hl => ?_, fun a hl hlon => ?_, fun a b hl hlon hab => ?_,
    fun a b hl hlon hab => ?_⟩
  · simp only [get_theme_time, hl, coordCheck]
    rw [if_pos hs]
  · simp only [get_theme_time, hl, hlon, coordCheck]
    rw [if_pos hs]
  · simp only [get_theme_time, hl, hlon, coordCheck, hab]
    rw [if_pos hs]
    rfl
  · simp only [get_theme_time, hl, hlon, coordCheck, hab]
    rw [if_pos hs]
    rfl

/-- Claim C8, witness: a present but unparseable latitude with a parseable
longitude exits cleanly with the coordinate error message. -/
theorem solar_coord_check_witness :
    get_theme_time envBadLat "dawn" 0 =
      Except.error (PyOutcome.exitMsg "[ERROR] Coordinates not valid number(s)") :=
  (solar_coord_check envBadLat "dawn" 0 (by decide)).2.2.1 false true rfl rfl rfl
